import Mathlib

/-!
Verification development for the Oraichain agent-kit transaction pipeline
(`OraichainAgentKit` / `OraichainAgentKitWithSigner`, two source variants,
plus the transaction tools).  The TypeScript source is shallowly embedded:
bytes are natural numbers `< 256`, byte strings are `List ℕ`, fallible
operations return `Except`/`Option`, and the external cosmjs helpers the
source calls (`toBase64`/`fromBase64`, protobuf encoders of
`TxRaw`/`SignDoc`/`AuthInfo`, `calculateFee`, `encodeSecp256k1Pubkey`,
`encodeSecp256k1Signature`) are embedded at byte level.
-/

set_option maxRecDepth 4000

deriving instance DecidableEq for Except

namespace OraiMcp

/-- Little-endian base-128 varint encoding (fueled; `n + 1` is always
enough fuel since the argument shrinks strictly). -/
def varintGo : ℕ → ℕ → List ℕ
  | 0, _ => []
  | fuel + 1, n => if n < 128 then [n] else (n % 128 + 128) :: varintGo fuel (n / 128)

/-- Little-endian base-128 varint encoding, as written by the protobuf
writer (`writer.uint32` / `writer.uint64`). -/
def varint (n : ℕ) : List ℕ := varintGo (n + 1) n

/-- A protobuf length-delimited field: tag varint, length varint, payload. -/
def pbBytesField (tag : ℕ) (b : List ℕ) : List ℕ :=
  varint tag ++ varint b.length ++ b

/-- UTF-8 encoding of a single character. -/
def utf8EncodeChar (c : Char) : List ℕ :=
  let n := c.toNat
  if n < 128 then [n]
  else if n < 2048 then [192 + n / 64, 128 + n % 64]
  else if n < 65536 then [224 + n / 4096, 128 + n / 64 % 64, 128 + n % 64]
  else [240 + n / 262144, 128 + n / 4096 % 64, 128 + n / 64 % 64, 128 + n % 64]

/-- UTF-8 encoding of a string (`toUtf8` / `Buffer.from(s)`). -/
def utf8Encode (s : String) : List ℕ :=
  s.data.flatMap utf8EncodeChar

/-- Is a byte a UTF-8 continuation byte? -/
def isCont (b : ℕ) : Bool := 128 ≤ b ∧ b < 192

/-- Fueled UTF-8 decoding (`Buffer.prototype.toString("utf-8")`); invalid
sequences produce the replacement character U+FFFD.  Overlong encodings are
not separately rejected. -/
def utf8DecodeGo : ℕ → List ℕ → List Char
  | 0, _ => []
  | _ + 1, [] => []
  | fuel + 1, b :: t =>
    if b < 128 then Char.ofNat b :: utf8DecodeGo fuel t
    else if b < 192 then Char.ofNat 65533 :: utf8DecodeGo fuel t
    else if b < 224 then
      match t with
      | b2 :: t2 =>
        if isCont b2 then Char.ofNat ((b % 32) * 64 + b2 % 64) :: utf8DecodeGo fuel t2
        else Char.ofNat 65533 :: utf8DecodeGo fuel t
      | [] => [Char.ofNat 65533]
    else if b < 240 then
      match t with
      | b2 :: b3 :: t3 =>
        if isCont b2 ∧ isCont b3 then
          Char.ofNat ((b % 16) * 4096 + (b2 % 64) * 64 + b3 % 64) :: utf8DecodeGo fuel t3
        else Char.ofNat 65533 :: utf8DecodeGo fuel t
      | _ => Char.ofNat 65533 :: utf8DecodeGo fuel t
    else if b < 248 then
      match t with
      | b2 :: b3 :: b4 :: t4 =>
        if isCont b2 ∧ isCont b3 ∧ isCont b4 then
          Char.ofNat ((b % 8) * 262144 + (b2 % 64) * 4096 + (b3 % 64) * 64 + b4 % 64)
            :: utf8DecodeGo fuel t4
        else Char.ofNat 65533 :: utf8DecodeGo fuel t
      | _ => Char.ofNat 65533 :: utf8DecodeGo fuel t
    else Char.ofNat 65533 :: utf8DecodeGo fuel t

/-- UTF-8 decoding of a byte list to a string. -/
def utf8Decode (l : List ℕ) : String :=
  ⟨utf8DecodeGo (l.length + 1) l⟩

/-- The standard base64 alphabet. -/
def b64Alphabet : List Char :=
  ['A','B','C','D','E','F','G','H','I','J','K','L','M','N','O','P','Q','R','S','T',
   'U','V','W','X','Y','Z','a','b','c','d','e','f','g','h','i','j','k','l','m','n',
   'o','p','q','r','s','t','u','v','w','x','y','z','0','1','2','3','4','5','6','7',
   '8','9','+','/']

/-- Base64 character for a 6-bit value. -/
def b64Enc (v : ℕ) : Char := b64Alphabet.getD v 'A'

/-- 6-bit value of a base64 character (64 when the character is not in the
alphabet; valid inputs never hit that case). -/
def b64Dec (c : Char) : ℕ := b64Alphabet.indexOf c

/-- Base64 encoding of a byte list, three bytes to four characters with
`'='` padding (cosmjs `toBase64`). -/
def toBase64Chars : List ℕ → List Char
  | [] => []
  | [a] => [b64Enc (a / 4), b64Enc (a % 4 * 16), '=', '=']
  | [a, b] => [b64Enc (a / 4), b64Enc (a % 4 * 16 + b / 16), b64Enc (b % 16 * 4), '=']
  | a :: b :: c :: t =>
    b64Enc (a / 4) :: b64Enc (a % 4 * 16 + b / 16) :: b64Enc (b % 16 * 4 + c / 64)
      :: b64Enc (c % 64) :: toBase64Chars t

/-- cosmjs `toBase64`. -/
def toBase64 (l : List ℕ) : String := ⟨toBase64Chars l⟩

/-- Base64 decoding of a character list, four characters to three bytes,
honouring `'='` padding (cosmjs `fromBase64`, `Buffer.from(s, "base64")`). -/
def fromBase64Chars : List Char → List ℕ
  | w :: x :: y :: z :: t =>
    if y = '=' then [b64Dec w * 4 + b64Dec x / 16]
    else if z = '=' then [b64Dec w * 4 + b64Dec x / 16, b64Dec x % 16 * 16 + b64Dec y / 4]
    else (b64Dec w * 4 + b64Dec x / 16) :: (b64Dec x % 16 * 16 + b64Dec y / 4)
      :: (b64Dec y % 4 * 64 + b64Dec z) :: fromBase64Chars t
  | _ => []

/-- Base64 decoding of a string to bytes. -/
def fromBase64 (s : String) : List ℕ := fromBase64Chars s.data

/-- All bytes of a list are in range. -/
def BytesValid (l : List ℕ) : Prop := ∀ b ∈ l, b < 256

instance : DecidablePred BytesValid := fun l =>
  inferInstanceAs (Decidable (∀ b ∈ l, b < 256))

/-! ## Protobuf reading (the protobufjs reader used by `SignDoc.decode`) -/

/-- Read a little-endian base-128 varint from the head of a byte list
(`reader.uint32` / `reader.uint64`); `none` when the input ends inside the
varint. -/
def readVarint : List ℕ → Option (ℕ × List ℕ)
  | [] => none
  | b :: t =>
    if b < 128 then some (b, t)
    else
      match readVarint t with
      | some (v, r) => some (b % 128 + v * 128, r)
      | none => none

/-- Read a length-delimited payload (`reader.bytes`): length varint, then
that many bytes; `none` when the input is too short. -/
def readBytes (l : List ℕ) : Option (List ℕ × List ℕ) :=
  match readVarint l with
  | none => none
  | some (len, r) => if len ≤ r.length then some (r.take len, r.drop len) else none

mutual

/-- Skip one field of the given wire type (`reader.skip`); wire types 0, 1,
2, 3, 5 as in protobufjs, anything else is an error. -/
def pbSkip : ℕ → ℕ → List ℕ → Option (List ℕ)
  | 0, _, _ => none
  | fuel + 1, wire, l =>
    if wire = 0 then (readVarint l).map (·.2)
    else if wire = 1 then if 8 ≤ l.length then some (l.drop 8) else none
    else if wire = 2 then (readBytes l).map (·.2)
    else if wire = 5 then if 4 ≤ l.length then some (l.drop 4) else none
    else if wire = 3 then pbSkipGroup fuel l
    else none

/-- Skip the rest of a group: read tags and skip fields until an end-group
tag (wire type 4) appears. -/
def pbSkipGroup : ℕ → List ℕ → Option (List ℕ)
  | 0, _ => none
  | fuel + 1, l =>
    match readVarint l with
    | none => none
    | some (tag, r) =>
      if tag % 8 = 4 then some r
      else
        match pbSkip fuel (tag % 8) r with
        | none => none
        | some r2 => pbSkipGroup fuel r2

end

/-! ## Transaction data structures -/

/-- An `EncodeObject` / protobuf `Any`: a type URL together with the
registry-encoded value bytes of the message. -/
structure AnyMsg where
  typeUrl : String
  valueBytes : List ℕ
  deriving Repr, DecidableEq, Inhabited

/-- `SignDoc` from `cosmos.tx.v1beta1` (the direct-mode sign payload built
by `makeSignDoc`). -/
structure SignDoc where
  bodyBytes : List ℕ
  authInfoBytes : List ℕ
  chainId : String
  accountNumber : ℕ
  deriving Repr, DecidableEq, Inhabited

/-- `TxRaw` from `cosmos.tx.v1beta1`. -/
structure TxRaw where
  bodyBytes : List ℕ
  authInfoBytes : List ℕ
  signatures : List (List ℕ)
  deriving Repr, DecidableEq, Inhabited

/-- A coin amount (`amount` is a decimal string in the source; modelled as
the number it denotes). -/
structure Coin where
  denom : String
  amount : ℕ
  deriving Repr, DecidableEq, Inhabited

/-- `StdFee` (gas is a decimal string in the source, parsed back with
`Int53.fromString`; modelled as the number it denotes). -/
structure StdFee where
  amount : List Coin
  gas : ℕ
  granter : Option String := none
  payer : Option String := none
  deriving Repr, DecidableEq, Inhabited

/-! ## Protobuf encoders (cosmjs-types generated writers) -/

/-- `Any.encode`: field 1 the type URL, field 2 the value bytes, each
written only when non-empty. -/
def anyEncode (m : AnyMsg) : List ℕ :=
  (if m.typeUrl ≠ "" then pbBytesField 10 (utf8Encode m.typeUrl) else []) ++
  (if m.valueBytes.length ≠ 0 then pbBytesField 18 m.valueBytes else [])

/-- `TxBody.encode` of the body object built by `buildSignDoc`
(`{messages, memo, timeoutHeight}`): field 1 repeated `Any`, field 2 memo
when non-empty, field 3 timeout height when non-zero
(`fromPartial` of an absent timeout gives 0, which is omitted). -/
def txBodyEncode (messages : List AnyMsg) (memo : String) (timeoutHeight : ℕ) : List ℕ :=
  messages.flatMap (fun m => pbBytesField 10 (anyEncode m)) ++
  (if memo ≠ "" then pbBytesField 18 (utf8Encode memo) else []) ++
  (if timeoutHeight ≠ 0 then varint 24 ++ varint timeoutHeight else [])

/-- `Coin.encode`: field 1 denom, field 2 the decimal amount string, each
written when non-empty (a zero amount still renders as the non-empty
string "0", hence is always written). -/
def coinEncode (c : Coin) : List ℕ :=
  (if c.denom ≠ "" then pbBytesField 10 (utf8Encode c.denom) else []) ++
  pbBytesField 18 (utf8Encode (Nat.repr c.amount))

/-- `Fee.encode`: field 1 repeated coins, field 2 gas limit when non-zero,
field 3 payer, field 4 granter when non-empty. -/
def feeEncode (amount : List Coin) (gasLimit : ℕ) (payer granter : String) : List ℕ :=
  amount.flatMap (fun c => pbBytesField 10 (coinEncode c)) ++
  (if gasLimit ≠ 0 then varint 16 ++ varint gasLimit else []) ++
  (if payer ≠ "" then pbBytesField 26 (utf8Encode payer) else []) ++
  (if granter ≠ "" then pbBytesField 34 (utf8Encode granter) else [])

/-- `ModeInfo.encode` for a single-signer mode: field 1 a `Single` message
whose field 1 is the sign-mode enum (omitted when 0). -/
def modeInfoEncode (mode : ℕ) : List ℕ :=
  pbBytesField 10 (if mode ≠ 0 then varint 8 ++ varint mode else [])

/-- `SignerInfo.encode`: field 1 the public key `Any`, field 2 the mode
info, field 3 the sequence when non-zero. -/
def signerInfoEncode (publicKey : AnyMsg) (mode : ℕ) (sequence : ℕ) : List ℕ :=
  pbBytesField 10 (anyEncode publicKey) ++
  pbBytesField 18 (modeInfoEncode mode) ++
  (if sequence ≠ 0 then varint 24 ++ varint sequence else [])

/-- `SIGN_MODE_DIRECT`. -/
def signModeDirect : ℕ := 1

/-- `SIGN_MODE_LEGACY_AMINO_JSON`. -/
def signModeLegacyAminoJson : ℕ := 127

/-- cosmjs `makeAuthInfoBytes` for one signer: builds
`AuthInfo{signerInfos: [...], fee}` (with `fromPartial` turning absent
granter/payer into empty strings) and encodes it: field 1 each signer
info, field 2 the fee. -/
def makeAuthInfoBytes (publicKey : AnyMsg) (sequence : ℕ) (feeAmount : List Coin)
    (gasLimit : ℕ) (granter payer : Option String) (mode : ℕ) : List ℕ :=
  pbBytesField 10 (signerInfoEncode publicKey mode sequence) ++
  pbBytesField 18 (feeEncode feeAmount gasLimit (payer.getD "") (granter.getD ""))

/-- `SignDoc.encode` (also `makeSignBytes`, which is
`SignDoc.encode(SignDoc.fromPartial(signDoc)).finish()`): field 1 body
bytes, field 2 auth info bytes, field 3 chain id, field 4 account number,
each omitted when empty/zero. -/
def signDocEncode (sd : SignDoc) : List ℕ :=
  (if sd.bodyBytes.length ≠ 0 then pbBytesField 10 sd.bodyBytes else []) ++
  (if sd.authInfoBytes.length ≠ 0 then pbBytesField 18 sd.authInfoBytes else []) ++
  (if sd.chainId ≠ "" then pbBytesField 26 (utf8Encode sd.chainId) else []) ++
  (if sd.accountNumber ≠ 0 then varint 32 ++ varint sd.accountNumber else [])

/-- `TxRaw.encode`: field 1 body bytes and field 2 auth info bytes when
non-empty, field 3 every signature (written unconditionally). -/
def txRawEncode (tx : TxRaw) : List ℕ :=
  (if tx.bodyBytes.length ≠ 0 then pbBytesField 10 tx.bodyBytes else []) ++
  (if tx.authInfoBytes.length ≠ 0 then pbBytesField 18 tx.authInfoBytes else []) ++
  tx.signatures.flatMap (fun s => pbBytesField 26 s)

/-- The decode loop of the generated `SignDoc.decode`: read a tag; on the
exact tags 10/18/26/32 set the corresponding field and continue; break on
an end-group tag or tag 0; otherwise skip the field by wire type. `none`
models the reader throwing on malformed input. -/
def signDocDecodeGo : ℕ → SignDoc → List ℕ → Option SignDoc
  | 0, _, _ => none
  | _ + 1, st, [] => some st
  | fuel + 1, st, l =>
    match readVarint l with
    | none => none
    | some (tag, r) =>
      if tag = 10 then
        match readBytes r with
        | none => none
        | some (b, r2) => signDocDecodeGo fuel { st with bodyBytes := b } r2
      else if tag = 18 then
        match readBytes r with
        | none => none
        | some (b, r2) => signDocDecodeGo fuel { st with authInfoBytes := b } r2
      else if tag = 26 then
        match readBytes r with
        | none => none
        | some (b, r2) => signDocDecodeGo fuel { st with chainId := utf8Decode b } r2
      else if tag = 32 then
        match readVarint r with
        | none => none
        | some (v, r2) => signDocDecodeGo fuel { st with accountNumber := v } r2
      else if tag % 8 = 4 ∨ tag = 0 then some st
      else
        match pbSkip fuel (tag % 8) r with
        | none => none
        | some r2 => signDocDecodeGo fuel st r2

/-- `SignDoc.decode` on a full byte list, starting from the
`fromPartial` defaults. -/
def signDocDecode (l : List ℕ) : Option SignDoc :=
  signDocDecodeGo (l.length + 1) ⟨[], [], "", 0⟩ l

/-! ## cosmjs helpers used by the agent kit -/

/-- Errors thrown along the embedded pipeline (each constructor stands for
one `throw` site in the source or its cosmjs callees). -/
inductive KitError where
  /-- `encodeSecp256k1Pubkey`: not 33 bytes starting with 0x02/0x03. -/
  | invalidPubkey
  /-- `simulate`: the RPC call failed or `assertDefined(gasInfo)` threw. -/
  | simulationFailed
  /-- variant 2 `buildSignDoc`: "Oraichain chain info not found". -/
  | chainInfoNotFound
  /-- variant 2 `buildSignDoc`: "Oraichain fee currency not found". -/
  | feeCurrencyNotFound
  /-- `calculateFee`: `Uint53` rejects a negative gas limit. -/
  | negativeGasLimit
  /-- `encodeSecp256k1Signature`: signature is not 64 bytes. -/
  | invalidSignature
  /-- `SignDoc.decode` threw on malformed bytes. -/
  | decodeFailed
  deriving Repr, DecidableEq, Inhabited

/-- `encodeSecp256k1Pubkey`'s validity test: a compressed secp256k1 key is
33 bytes starting with 0x02 or 0x03. -/
def compressedSecpPubkey (pk : List ℕ) : Bool :=
  pk.length = 33 ∧ (pk.headD 0 = 2 ∨ pk.headD 0 = 3)

/-- cosmjs `encodeSecp256k1Pubkey`: validates the key and wraps it (the
wrapped amino pubkey is modelled by its raw bytes). -/
def encodeSecp256k1Pubkey (pk : List ℕ) : Except KitError (List ℕ) :=
  if compressedSecpPubkey pk then .ok pk else .error .invalidPubkey

/-- cosmjs `encodePubkey`: the `Any` holding the protobuf
`cosmos.crypto.secp256k1.PubKey` encoding of the key bytes (field 1,
omitted when empty). -/
def encodePubkey (pk : List ℕ) : AnyMsg :=
  ⟨"/cosmos.crypto.secp256k1.PubKey", if pk.length ≠ 0 then pbBytesField 10 pk else []⟩

/-- A cosmjs `GasPrice`: an amount (a decimal in the source) and a denom. -/
structure GasPrice where
  amount : ℚ
  denom : String
  deriving Repr, DecidableEq, Inhabited

/-- cosmjs `calculateFee`: the fee amount is `ceil(gasPrice * gasLimit)`
in the gas price's denom and the fee gas is the gas limit itself;
`Uint53` rejects a negative gas limit. -/
def calculateFee (gasLimit : ℤ) (gasPrice : GasPrice) : Except KitError StdFee :=
  if gasLimit < 0 then .error .negativeGasLimit
  else .ok { amount := [⟨gasPrice.denom, (Int.ceil (gasPrice.amount * gasLimit)).toNat⟩],
             gas := gasLimit.toNat }

/-- JavaScript `Number.prototype.toFixed(0)` followed by `parseInt`:
rounds to the nearest integer, ties to the larger one. -/
def jsToFixed0 (q : ℚ) : ℤ := ⌊q + 1/2⌋

/-- The cosmjs `StdSignature` produced by `encodeSecp256k1Signature`:
an amino-wrapped public key and a base64 signature string. -/
structure StdSignature where
  pubKey : List ℕ
  signature : String
  deriving Repr, DecidableEq, Inhabited

/-- cosmjs `encodeSecp256k1Signature`: requires a 64-byte signature, then
wraps the (validated) pubkey and the base64 of the signature bytes. -/
def encodeSecp256k1Signature (pubkey sig : List ℕ) : Except KitError StdSignature :=
  if sig.length ≠ 64 then .error .invalidSignature
  else
    match encodeSecp256k1Pubkey pubkey with
    | .error e => .error e
    | .ok pk => .ok ⟨pk, toBase64 sig⟩

/-! ## The chain environment -/

/-- The chain state observable through the kit's query clients.  All kit
reads are live queries against this environment; the kit itself holds no
account cache. -/
structure ChainEnv where
  /-- `client.getSequence(address)`: `(accountNumber, sequence)`. -/
  accountOf : String → ℕ × ℕ
  /-- `client.getChainId()`. -/
  chainId : String
  /-- `queryClient.tx.simulate(anyMsgs, memo, pubkey, sequence)`:
  `gasInfo.gasUsed` on success, `none` when the call fails or returns no
  gas info (`assertDefined(gasInfo)` then throws). -/
  simulateGas : List AnyMsg → String → List ℕ → ℕ → Option ℕ

/-- The `stdFee` parameter of `buildSignDoc`: the string `"auto"` or an
explicit `StdFee`. -/
inductive FeeArg where
  | auto
  | fixed (fee : StdFee)
  deriving Repr, DecidableEq, Inhabited

/-- The `simulate` method (both variants are identical): re-reads the
sequence, encodes the messages as `Any`s and asks the chain to simulate;
a missing `gasInfo` is an error. -/
def kitSimulate (env : ChainEnv) (senderAddress : String) (senderPubkey : List ℕ)
    (messages : List AnyMsg) (memo : String) : Except KitError ℕ :=
  let seq := (env.accountOf senderAddress).2
  match env.simulateGas messages memo senderPubkey seq with
  | none => .error .simulationFailed
  | some g => .ok g

/-! ## Variant 1 (`OraichainAgentKit` with `gasMultiplier = 1.5`) -/

/-- Variant 1's `gasMultiplier` field default. -/
def v1DefaultGasMultiplier : ℚ := 3/2

/-- Variant 1 auto-fee (lines inside `buildSignDoc`):
`(gasUsed * gasMultiplier).toFixed(0)`, `parseInt`, then
`calculateFee(gas, GasPrice.fromString("0.001orai"))`. -/
def v1ComputeAutoFee (gasMultiplier : ℚ) (gasUsed : ℕ) : Except KitError StdFee :=
  calculateFee (jsToFixed0 (gasUsed * gasMultiplier)) ⟨1/1000, "orai"⟩

/-- Variant 1 `buildSignDoc`: read `(accountNumber, sequence)` and the
chain id live, validate and wrap the pubkey, resolve the fee (simulating
in `"auto"` mode), encode the body, build auth-info bytes from pubkey,
sequence and fee, and assemble the `SignDoc`. -/
def v1BuildSignDoc (gasMultiplier : ℚ) (env : ChainEnv) (senderAddress publicKey : String)
    (messages : List AnyMsg) (stdFee : FeeArg) (memo : String)
    (timeoutHeight : Option ℕ) : Except KitError SignDoc :=
  let acc := env.accountOf senderAddress
  let chainId := env.chainId
  let pubkeyBuffer := fromBase64 publicKey
  match encodeSecp256k1Pubkey pubkeyBuffer with
  | .error e => .error e
  | .ok secpPk =>
    let pubkey := encodePubkey secpPk
    let feeResult : Except KitError StdFee :=
      match stdFee with
      | .auto =>
        match kitSimulate env senderAddress secpPk messages memo with
        | .error e => .error e
        | .ok gasUsed => v1ComputeAutoFee gasMultiplier gasUsed
      | .fixed f => .ok f
    match feeResult with
    | .error e => .error e
    | .ok fee =>
      let txBodyBytes := txBodyEncode messages memo (timeoutHeight.getD 0)
      let gasLimit := fee.gas
      let authInfoBytes :=
        makeAuthInfoBytes pubkey acc.2 fee.amount gasLimit fee.granter fee.payer signModeDirect
      .ok ⟨txBodyBytes, authInfoBytes, chainId, acc.1⟩

/-- Variant 1 `buildTxRawBuffer`: the submitted bytes are the `TxRaw`
encoding of the sign doc's body and auth-info bytes with the single
decoded signature. -/
def v1BuildTxRawBuffer (signDoc : SignDoc) (signature : String) : List ℕ :=
  txRawEncode ⟨signDoc.bodyBytes, signDoc.authInfoBytes, [fromBase64 signature]⟩

/-- Variant 1 `broadcastSignDocBase64`: decode the sign doc, build the
`TxRaw` buffer, and submit it (the result is the byte list handed to
`client.broadcastTxSync`). -/
def v1BroadcastSignDocBase64 (signDocBase64 signature : String) : Except KitError (List ℕ) :=
  match signDocDecode (fromBase64 signDocBase64) with
  | none => .error .decodeFailed
  | some sd => .ok (v1BuildTxRawBuffer sd signature)

/-- `broadcastTxSync` (identical in both variants): the bytes handed to
the chain are the base64 decoding of the input. -/
def broadcastTxSyncBytes (signedTx : String) : List ℕ :=
  fromBase64 signedTx

/-- `broadcastTxSyncFromDirectSignDocAndSignature` (identical in both
variants): decode the three base64 parts, assemble a `TxRaw`, and hand its
encoding to the chain. -/
def broadcastFromDirectPartsBytes (signedBodyBytes signedAuthBytes : String)
    (signatures : List String) : List ℕ :=
  txRawEncode ⟨fromBase64 signedBodyBytes, fromBase64 signedAuthBytes,
    signatures.map fromBase64⟩

/-! ## Variant 2 (`OraichainAgentKit` with `gasMultiplier = 1.4`) -/

/-- Variant 2's `gasMultiplier` field default (declared but never read by
any method of the variant). -/
def v2DefaultGasMultiplier : ℚ := 7/5

/-- A fee currency from the `OraiCommon` chain registry; only the low gas
price tier is consulted. -/
structure FeeCurrency where
  gasPriceStepLow : Option ℚ
  deriving Repr, DecidableEq, Inhabited

/-- The `OraiCommon.initializeFromGitRaw` lookup observable in variant 2's
auto-fee path: `none` models the Oraichain chain info being absent, and
the list models `chainInfo.feeCurrencies` (an absent array behaves as
empty). -/
structure V2CommonEnv where
  chainInfo : Option (List FeeCurrency)
  deriving Repr, DecidableEq, Inhabited

/-- Variant 2 auto-fee (lines inside `buildSignDoc`): look up the chain
info and its first fee currency, take `gasPriceStep.low` (default
`"0.001"`), and call `calculateFee(gasUsed, ...)` directly on the
simulated gas — the `gasMultiplier` field is not applied. -/
def v2ComputeAutoFee (common : V2CommonEnv) (gasUsed : ℕ) : Except KitError StdFee :=
  match common.chainInfo with
  | none => .error .chainInfoNotFound
  | some feeCurrencies =>
    match feeCurrencies.head? with
    | none => .error .feeCurrencyNotFound
    | some feeCurrency =>
      calculateFee (gasUsed : ℤ) ⟨feeCurrency.gasPriceStepLow.getD (1/1000), "orai"⟩

/-- Variant 2 `buildSignDoc`: as variant 1 except for the auto-fee path. -/
def v2BuildSignDoc (common : V2CommonEnv) (env : ChainEnv) (senderAddress publicKey : String)
    (messages : List AnyMsg) (stdFee : FeeArg) (memo : String)
    (timeoutHeight : Option ℕ) : Except KitError SignDoc :=
  let acc := env.accountOf senderAddress
  let chainId := env.chainId
  let pubkeyBuffer := fromBase64 publicKey
  match encodeSecp256k1Pubkey pubkeyBuffer with
  | .error e => .error e
  | .ok secpPk =>
    let pubkey := encodePubkey secpPk
    let feeResult : Except KitError StdFee :=
      match stdFee with
      | .auto =>
        match kitSimulate env senderAddress secpPk messages memo with
        | .error e => .error e
        | .ok gasUsed => v2ComputeAutoFee common gasUsed
      | .fixed f => .ok f
    match feeResult with
    | .error e => .error e
    | .ok fee =>
      let txBodyBytes := txBodyEncode messages memo (timeoutHeight.getD 0)
      let gasLimit := fee.gas
      let authInfoBytes :=
        makeAuthInfoBytes pubkey acc.2 fee.amount gasLimit fee.granter fee.payer signModeDirect
      .ok ⟨txBodyBytes, authInfoBytes, chainId, acc.1⟩

/-- Variant 2 `buildTxRawBuffer`: wraps the signature through
`encodeSecp256k1Signature` (which validates the pubkey and the 64-byte
signature length and re-encodes the signature via base64) before
assembling the `TxRaw`. -/
def v2BuildTxRawBuffer (signDoc : SignDoc) (publicKey signature : String) :
    Except KitError (List ℕ) :=
  match encodeSecp256k1Signature (fromBase64 publicKey) (fromBase64 signature) with
  | .error e => .error e
  | .ok stdSignature =>
    .ok (txRawEncode ⟨signDoc.bodyBytes, signDoc.authInfoBytes,
      [fromBase64 stdSignature.signature]⟩)

/-- Variant 2 `broadcastSignDocBase64`. -/
def v2BroadcastSignDocBase64 (signDocBase64 publicKey signature : String) :
    Except KitError (List ℕ) :=
  match signDocDecode (fromBase64 signDocBase64) with
  | none => .error .decodeFailed
  | some sd => v2BuildTxRawBuffer sd publicKey signature

/-! ## JSON values and `JSON.parse` (used by `signAmino`) -/

/-- A JavaScript JSON value. -/
inductive Json where
  | null
  | bool (b : Bool)
  | num (q : ℚ)
  | str (s : String)
  | arr (elements : List Json)
  | obj (fields : List (String × Json))

instance : Inhabited Json := ⟨.null⟩

/-- JSON insignificant whitespace. -/
def jsonWs (c : Char) : Bool :=
  c = ' ' ∨ c = Char.ofNat 9 ∨ c = Char.ofNat 10 ∨ c = Char.ofNat 13

/-- Drop leading JSON whitespace. -/
def skipWs : List Char → List Char
  | [] => []
  | c :: t => if jsonWs c then skipWs t else c :: t

/-- Value of a hexadecimal digit. -/
def hexVal (c : Char) : Option ℕ :=
  if '0' ≤ c ∧ c ≤ '9' then some (c.toNat - 48)
  else if 'a' ≤ c ∧ c ≤ 'f' then some (c.toNat - 87)
  else if 'A' ≤ c ∧ c ≤ 'F' then some (c.toNat - 55)
  else none

/-- Parse the rest of a JSON string literal (after the opening quote):
plain characters above U+001F, the short escapes, and `\uXXXX`. -/
def pStringGo : List Char → String → Option (String × List Char)
  | [], _ => none
  | c :: t, acc =>
    if c = '"' then some (acc, t)
    else if c = '\\' then
      match t with
      | [] => none
      | e :: t2 =>
        if e = '"' then pStringGo t2 (acc.push '"')
        else if e = '\\' then pStringGo t2 (acc.push '\\')
        else if e = '/' then pStringGo t2 (acc.push '/')
        else if e = 'b' then pStringGo t2 (acc.push (Char.ofNat 8))
        else if e = 'f' then pStringGo t2 (acc.push (Char.ofNat 12))
        else if e = 'n' then pStringGo t2 (acc.push (Char.ofNat 10))
        else if e = 'r' then pStringGo t2 (acc.push (Char.ofNat 13))
        else if e = 't' then pStringGo t2 (acc.push (Char.ofNat 9))
        else if e = 'u' then
          match t2 with
          | h1 :: h2 :: h3 :: h4 :: t3 =>
            match hexVal h1, hexVal h2, hexVal h3, hexVal h4 with
            | some a, some b, some c2, some d =>
              pStringGo t3 (acc.push (Char.ofNat (a * 4096 + b * 256 + c2 * 16 + d)))
            | _, _, _, _ => none
          | _ => none
        else none
    else if c.toNat < 32 then none
    else pStringGo t (acc.push c)

/-- Split off leading decimal digits. -/
def takeDigits (l : List Char) : List Char × List Char :=
  (l.takeWhile Char.isDigit, l.dropWhile Char.isDigit)

/-- Numeric value of a digit list. -/
def digitsToNat (ds : List Char) : ℕ :=
  ds.foldl (fun a c => a * 10 + (c.toNat - 48)) 0

/-- Parse a JSON exponent after `e`/`E`: optional sign, then digits. -/
def pExponent (cs : List Char) : Option (ℤ × List Char) :=
  let (sgn, cs1) : ℤ × List Char :=
    match cs with
    | '+' :: r => (1, r)
    | '-' :: r => (-1, r)
    | _ => (1, cs)
  let (ds, r) := takeDigits cs1
  if ds.isEmpty then none else some (sgn * digitsToNat ds, r)

/-- Parse a JSON number: optional minus, integer part (no leading zeros),
optional fraction and exponent. -/
def pNumber (cs : List Char) : Option (ℚ × List Char) :=
  let (sgn, cs1) : ℚ × List Char :=
    match cs with
    | '-' :: r => (-1, r)
    | _ => (1, cs)
  match cs1 with
  | [] => none
  | c :: ctail =>
    if ¬ c.isDigit then none
    else
      let (intDigits, rest1) := if c = '0' then ([c], ctail) else takeDigits cs1
      if c = '0' ∧ (rest1.headD 'x').isDigit then none
      else
        let iv : ℚ := (digitsToNat intDigits : ℚ)
        let step2 : Option (ℚ × List Char) :=
          match rest1 with
          | '.' :: r =>
            let (ds, r2) := takeDigits r
            if ds.isEmpty then none
            else some (iv + (digitsToNat ds : ℚ) / ((10 : ℚ) ^ ds.length), r2)
          | _ => some (iv, rest1)
        match step2 with
        | none => none
        | some (v, rest2) =>
          match rest2 with
          | 'e' :: r => (pExponent r).map (fun p => (sgn * v * (10 : ℚ) ^ p.1, p.2))
          | 'E' :: r => (pExponent r).map (fun p => (sgn * v * (10 : ℚ) ^ p.1, p.2))
          | _ => some (sgn * v, rest2)

mutual

/-- Parse one JSON value (fueled recursive descent). -/
def pJson : ℕ → List Char → Option (Json × List Char)
  | 0, _ => none
  | fuel + 1, cs =>
    match skipWs cs with
    | [] => none
    | '{' :: r =>
      match skipWs r with
      | '}' :: r2 => some (.obj [], r2)
      | r2 => pMembers fuel r2 []
    | '[' :: r =>
      match skipWs r with
      | ']' :: r2 => some (.arr [], r2)
      | r2 => pElems fuel r2 []
    | '"' :: r => (pStringGo r "").map (fun p => (.str p.1, p.2))
    | 't' :: 'r' :: 'u' :: 'e' :: r => some (.bool true, r)
    | 'f' :: 'a' :: 'l' :: 's' :: 'e' :: r => some (.bool false, r)
    | 'n' :: 'u' :: 'l' :: 'l' :: r => some (.null, r)
    | cs2 => (pNumber cs2).map (fun p => (.num p.1, p.2))

/-- Parse object members (after at least one member is required). -/
def pMembers : ℕ → List Char → List (String × Json) → Option (Json × List Char)
  | 0, _, _ => none
  | fuel + 1, cs, acc =>
    match skipWs cs with
    | '"' :: r =>
      match pStringGo r "" with
      | none => none
      | some (k, r2) =>
        match skipWs r2 with
        | ':' :: r3 =>
          match pJson fuel r3 with
          | none => none
          | some (v, r4) =>
            match skipWs r4 with
            | ',' :: r5 => pMembers fuel r5 (acc ++ [(k, v)])
            | '}' :: r5 => some (.obj (acc ++ [(k, v)]), r5)
            | _ => none
        | _ => none
    | _ => none

/-- Parse array elements (after at least one element is required). -/
def pElems : ℕ → List Char → List Json → Option (Json × List Char)
  | 0, _, _ => none
  | fuel + 1, cs, acc =>
    match pJson fuel cs with
    | none => none
    | some (v, r) =>
      match skipWs r with
      | ',' :: r2 => pElems fuel r2 (acc ++ [v])
      | ']' :: r2 => some (.arr (acc ++ [v]), r2)
      | _ => none

end

/-- `JSON.parse`: parse one value and require only whitespace after it. -/
def jsonParse (s : String) : Option Json :=
  match pJson (s.length + 1) s.data with
  | none => none
  | some (v, r) => if skipWs r = [] then some v else none

/-! ## The signer (`OraichainAgentKitWithSigner`) -/

/-- One wallet account as returned by `getAccounts()`. -/
structure WalletAccount where
  address : String
  pubkey : List ℕ
  deriving Repr, DecidableEq, Inhabited

/-- Errors thrown along the signing paths. -/
inductive SignKitError where
  /-- `SignDoc.decode` threw in `signDirect`. -/
  | decodeFailed
  /-- `JSON.parse` threw in `signAmino`. -/
  | jsonParseFailed
  /-- `accounts[accountIndex]` is undefined, so `.address` throws. -/
  | accountIndexInvalid
  /-- the cosmjs wallet does not know the requested address. -/
  | keyNotFound
  deriving Repr, DecidableEq, Inhabited

/-- The signer's environment: the HD wallet's derived accounts (the direct
and amino wallets share the mnemonic, hence the accounts), the
chain-known account state, and the secp256k1 signing primitives of the
cosmjs wallets, keyed by address and left opaque (cryptography is not
modelled; neither wallet inspects the sign doc's account fields). -/
structure SignerEnv where
  accounts : List WalletAccount
  /-- `signingCosmWasmClient.getSequence(address)`:
  `(accountNumber, sequence)` known on chain. -/
  chainAccountOf : String → ℕ × ℕ
  /-- `DirectSecp256k1HdWallet` signing over `makeSignBytes` output. -/
  directSign : String → List ℕ → List ℕ
  /-- `Secp256k1HdWallet` signing over the serialized amino document. -/
  aminoSign : String → Json → List ℕ

/-- The `{signDoc, signature}` response of `sign`/`signDirect`/`signAmino`
(both fields base64 strings). -/
structure SignResponse where
  signDoc : String
  signature : String
  deriving Repr, DecidableEq, Inhabited

/-- The JSON text `JSON.stringify` produces for the `StdSignature`
returned by the amino wallet (`encodeSecp256k1Signature` output:
`pub_key` wrapper then base64 signature). -/
def stdSignatureJson (pubkey sigBytes : List ℕ) : String :=
  "\x7b\"pub_key\":\x7b\"type\":\"tendermint/PubKeySecp256k1\",\"value\":\"" ++
    toBase64 pubkey ++ "\"\x7d,\"signature\":\"" ++ toBase64 sigBytes ++ "\"\x7d"

/-- `signDirect`: protobuf-decode the payload, look up
`accounts[accountIndex]`, and have the direct wallet sign
`makeSignBytes(signDoc)` for that address.  The wallet finds the account
by address and signs; no field of the decoded sign doc is checked against
chain state. -/
def signerSignDirect (env : SignerEnv) (signDocBase64 : String) (accountIndex : ℕ) :
    Except SignKitError SignResponse :=
  match signDocDecode (fromBase64 signDocBase64) with
  | none => .error .decodeFailed
  | some sd =>
    match env.accounts[accountIndex]? with
    | none => .error .accountIndexInvalid
    | some wallet =>
      match env.accounts.find? (fun a => a.address == wallet.address) with
      | none => .error .keyNotFound
      | some account =>
        .ok ⟨toBase64 (signDocEncode sd),
          toBase64 (env.directSign account.address (signDocEncode sd))⟩

/-- `signAmino`: UTF-8 decode and `JSON.parse` the payload, look up
`accounts[accountIndex]`, and have the amino wallet sign the parsed
document for that address.  The wallet serializes and signs whatever
value parsed; no shape or account check is performed. -/
def signerSignAmino (env : SignerEnv) (signDocBase64 : String) (accountIndex : ℕ) :
    Except SignKitError SignResponse :=
  match jsonParse (utf8Decode (fromBase64 signDocBase64)) with
  | none => .error .jsonParseFailed
  | some doc =>
    match env.accounts[accountIndex]? with
    | none => .error .accountIndexInvalid
    | some wallet =>
      match env.accounts.find? (fun a => a.address == wallet.address) with
      | none => .error .keyNotFound
      | some account =>
        .ok ⟨signDocBase64,
          toBase64 (utf8Encode (stdSignatureJson account.pubkey
            (env.aminoSign account.address doc)))⟩

/-- `sign`: dispatch on the `direct` flag. -/
def signerSign (env : SignerEnv) (signDocBase64 : String) (accountIndex : ℕ)
    (direct : Bool) : Except SignKitError SignResponse :=
  if direct then signerSignDirect env signDocBase64 accountIndex
  else signerSignAmino env signDocBase64 accountIndex

/-! ## The transaction tools (`_call` wrappers) -/

/-- A thrown JavaScript error as observed by the tools' catch blocks:
a message and an optional `code` property. -/
structure JsError where
  message : String
  code : Option String
  deriving Repr, DecidableEq, Inhabited

/-- `error.code || "UNKNOWN_ERROR"`: JavaScript `||` takes the fallback
for an absent code and also for an empty (falsy) one. -/
def jsErrorCode (e : JsError) : String :=
  match e.code with
  | none => "UNKNOWN_ERROR"
  | some c => if c = "" then "UNKNOWN_ERROR" else c

/-- The object a tool `_call` stringifies: a status, a message, and
optionally a `code` (error path) or a `data` payload (success path,
already rendered to JSON). -/
structure ToolResult where
  status : String
  message : String
  code : Option String
  dataJson : Option String
  deriving Repr, DecidableEq, Inhabited

/-- Lowercase hex digit. -/
def hexDigit (n : ℕ) : Char := "0123456789abcdef".data.getD n '0'

/-- `JSON.stringify` string escaping. -/
def jsonEscapeChar (c : Char) : List Char :=
  if c = '"' then ['\\', '"']
  else if c = '\\' then ['\\', '\\']
  else if c = Char.ofNat 8 then ['\\', 'b']
  else if c = Char.ofNat 9 then ['\\', 't']
  else if c = Char.ofNat 10 then ['\\', 'n']
  else if c = Char.ofNat 12 then ['\\', 'f']
  else if c = Char.ofNat 13 then ['\\', 'r']
  else if c.toNat < 32 then
    ['\\', 'u', '0', '0', hexDigit (c.toNat / 16), hexDigit (c.toNat % 16)]
  else [c]

/-- `JSON.stringify` escaping of a whole string. -/
def jsonEscape (s : String) : String := ⟨s.data.flatMap jsonEscapeChar⟩

/-- `JSON.stringify` of a `ToolResult` (keys in insertion order: status,
message, then code or data). -/
def renderToolResult (r : ToolResult) : String :=
  "\x7b\"status\":\"" ++ jsonEscape r.status ++ "\",\"message\":\"" ++
    jsonEscape r.message ++ "\"" ++
  (match r.code with
   | some c => ",\"code\":\"" ++ jsonEscape c ++ "\""
   | none => "") ++
  (match r.dataJson with
   | some d => ",\"data\":" ++ d
   | none => "") ++ "\x7d"

/-- `OraichainBroadcastTxTool._call` (the same try/catch shape serves the
other broadcast tools): the kit call's outcome is either the broadcast
result (modelled opaquely by its rendering) or a thrown error; the catch
block maps an error to `{status: "error", message, code}` and nothing
escapes the try/catch. -/
def broadcastTxToolCallResult (outcome : Except JsError String) : ToolResult :=
  match outcome with
  | .ok txHash =>
    ⟨"success", "Transaction successfully broadcasted with hash: " ++ txHash, none,
      some ("\x7b\"txHash\":" ++ txHash ++ "\x7d")⟩
  | .error e => ⟨"error", e.message, some (jsErrorCode e), none⟩

/-- The JSON string `OraichainBroadcastTxTool._call` returns. -/
def broadcastTxToolCall (outcome : Except JsError String) : String :=
  renderToolResult (broadcastTxToolCallResult outcome)

/-- `JSON.stringify` of a `SignResponse`. -/
def renderSignResponse (r : SignResponse) : String :=
  "\x7b\"signDoc\":\"" ++ jsonEscape r.signDoc ++ "\",\"signature\":\"" ++
    jsonEscape r.signature ++ "\"\x7d"

/-- `OraichainSignTool._call`: wraps `oraichainKit.sign`; successes render
the response, errors are mapped by the catch block exactly as in the
broadcast tools. -/
def signToolCallResult (accountIndex : Option ℕ)
    (outcome : Except JsError SignResponse) : ToolResult :=
  match outcome with
  | .ok resp =>
    ⟨"success",
      "Transaction successfully signed with account index " ++
        (match accountIndex with | some n => Nat.repr n | none => "undefined") ++
        ", signature " ++ resp.signature ++ ", signDoc " ++ resp.signDoc,
      none, some (renderSignResponse resp)⟩
  | .error e => ⟨"error", e.message, some (jsErrorCode e), none⟩

/-- The JSON string `OraichainSignTool._call` returns. -/
def signToolCall (accountIndex : Option ℕ) (outcome : Except JsError SignResponse) :
    String :=
  renderToolResult (signToolCallResult accountIndex outcome)

/-! ## Object state of the kit (for the determinism claim) -/

/-- The mutable state of a variant-1 `OraichainAgentKit` object: its only
mutable field is `gasMultiplier`; there is no account, sequence, or chain
cache. -/
structure KitState where
  gasMultiplier : ℚ
  deriving Repr, DecidableEq, Inhabited

/-- A `buildSignDoc` method call on a kit object: it reads the
`gasMultiplier` field and the live chain state and writes no field, so
the object state it leaves behind is the one it received. -/
def v1BuildSignDocCall (kit : KitState) (env : ChainEnv) (senderAddress publicKey : String)
    (messages : List AnyMsg) (stdFee : FeeArg) (memo : String) (timeoutHeight : Option ℕ) :
    Except KitError SignDoc × KitState :=
  (v1BuildSignDoc kit.gasMultiplier env senderAddress publicKey messages stdFee memo
    timeoutHeight, kit)

/-! ## Concrete example inputs used by the witnesses -/

/-- A valid compressed secp256k1 pubkey (33 bytes starting with 0x02),
base64-encoded as `buildSignDoc` receives it. -/
def examplePubkeyB64 : String := toBase64 (2 :: List.replicate 32 0)

/-- A chain environment with account number 7, sequence 5, and a
simulation that always reports gas 1. -/
def exampleChainEnv : ChainEnv := ⟨fun _ => (7, 5), "Oraichain", fun _ _ _ _ => some 1⟩

/-- An explicit fee with gas limit 100. -/
def exampleFixedFee : StdFee := ⟨[], 100, none, none⟩

/-- The auth-info bytes `buildSignDoc` produces for the example pubkey,
sequence 5 and the example fee. -/
def exampleAuthBytes : List ℕ :=
  makeAuthInfoBytes (encodePubkey (fromBase64 examplePubkeyB64)) 5 [] 100 none none
    signModeDirect

/-- The sign doc built from the example inputs with no messages, empty
memo and no timeout. -/
def exampleSd : SignDoc := ⟨txBodyEncode [] "" 0, exampleAuthBytes, "Oraichain", 7⟩

/-- The sign doc built from the example inputs with memo "m" and timeout
height 9. -/
def exampleSdA : SignDoc := ⟨txBodyEncode [] "m" 9, exampleAuthBytes, "Oraichain", 7⟩

/-- The sign doc built from the example inputs with one message, empty
memo, and no timeout. -/
def exampleSdB : SignDoc := ⟨txBodyEncode [⟨"/a", [1]⟩] "" 0, exampleAuthBytes, "Oraichain", 7⟩

/-- A signer environment with a single wallet account whose chain-known
account number is 7 and sequence 1 (the signing primitives are opaque
constants). -/
def exampleSignerEnv : SignerEnv :=
  ⟨[⟨"orai1addr", [2]⟩], fun _ => (7, 1), fun _ _ => [9], fun _ _ => [9]⟩

/-- A protobuf direct sign doc whose `SignDoc.encode` bytes happen to be
the UTF-8 of a valid JSON text (a newline followed by a JSON string
literal): body bytes of length 34 = 0x22, thirty-three `a`s and a closing
double quote. -/
def jsonLookalikeSignDoc : SignDoc :=
  ⟨List.replicate 33 97 ++ [34], [], "", 0⟩

/-! ## Range lemmas: every encoder emits bytes below 256 -/

theorem b64Dec_b64Enc {v : ℕ} (h : v < 64) : b64Dec (b64Enc v) = v := by
  revert h; revert v; decide

theorem b64Enc_ne_eq {v : ℕ} (h : v < 64) : ¬ (b64Enc v = '=') := by
  revert h; revert v; decide

theorem b64_roundtrip : ∀ l : List ℕ, BytesValid l → fromBase64Chars (toBase64Chars l) = l := by
  intro l
  induction l using toBase64Chars.induct with
  | case1 =>
    intro _; rfl
  | case2 a =>
    intro hv
    have ha : a < 256 := hv a (by simp)
    simp only [toBase64Chars, fromBase64Chars, if_true]
    rw [b64Dec_b64Enc (by omega), b64Dec_b64Enc (by omega)]
    congr 1
    omega
  | case3 a b =>
    intro hv
    have ha : a < 256 := hv a (by simp)
    have hb : b < 256 := hv b (by simp)
    simp only [toBase64Chars, fromBase64Chars]
    rw [if_neg (b64Enc_ne_eq (by omega))]
    simp only [if_true]
    rw [b64Dec_b64Enc (by omega), b64Dec_b64Enc (by omega), b64Dec_b64Enc (by omega)]
    congr 1
    · omega
    · congr 1; omega
  | case4 a b c t ih =>
    intro hv
    have ha : a < 256 := hv a (by simp)
    have hb : b < 256 := hv b (by simp)
    have hc : c < 256 := hv c (by simp)
    have ht : BytesValid t := fun x hx => hv x (by simp [hx])
    simp only [toBase64Chars, fromBase64Chars]
    rw [if_neg (b64Enc_ne_eq (by omega)), if_neg (b64Enc_ne_eq (by omega))]
    rw [b64Dec_b64Enc (by omega), b64Dec_b64Enc (by omega), b64Dec_b64Enc (by omega),
      b64Dec_b64Enc (by omega)]
    rw [ih ht]
    congr 1
    · omega
    · congr 1
      · omega
      · congr 1; omega

theorem fromBase64_toBase64 (l : List ℕ) (h : BytesValid l) :
    fromBase64 (toBase64 l) = l :=
  b64_roundtrip l h

theorem varintGo_valid (fuel n : ℕ) : BytesValid (varintGo fuel n) := by
  induction fuel generalizing n with
  | zero => intro b hb; simp [varintGo] at hb
  | succ fuel ih =>
    intro b hb
    rw [varintGo] at hb
    by_cases h : n < 128
    · rw [if_pos h] at hb
      simp at hb
      omega
    · rw [if_neg h] at hb
      rcases List.mem_cons.mp hb with hb | hb
      · omega
      · exact ih (n / 128) b hb

theorem varint_valid (n : ℕ) : BytesValid (varint n) :=
  varintGo_valid (n + 1) n

theorem bytesValid_append {l1 l2 : List ℕ} (h1 : BytesValid l1) (h2 : BytesValid l2) :
    BytesValid (l1 ++ l2) := by
  intro b hb
  rcases List.mem_append.mp hb with hb | hb
  · exact h1 b hb
  · exact h2 b hb

theorem pbBytesField_valid (tag : ℕ) {b : List ℕ} (hb : BytesValid b) :
    BytesValid (pbBytesField tag b) :=
  bytesValid_append (bytesValid_append (varint_valid tag) (varint_valid b.length)) hb

theorem txRawEncode_valid {tx : TxRaw} (hb : BytesValid tx.bodyBytes)
    (ha : BytesValid tx.authInfoBytes) (hs : ∀ s ∈ tx.signatures, BytesValid s) :
    BytesValid (txRawEncode tx) := by
  refine bytesValid_append (bytesValid_append ?_ ?_) ?_
  · split
    · exact pbBytesField_valid 10 hb
    · intro b hb2; simp at hb2
  · split
    · exact pbBytesField_valid 18 ha
    · intro b hb2; simp at hb2
  · intro b hb2
    rcases List.mem_flatMap.mp hb2 with ⟨s, hsmem, hbs⟩
    exact pbBytesField_valid 26 (hs s hsmem) b hbs

/-! ## Claim theorems -/

theorem map_fromBase64_toBase64 (sigs : List (List ℕ)) (hs : ∀ s ∈ sigs, BytesValid s) :
    (sigs.map toBase64).map fromBase64 = sigs := by
  induction sigs with
  | nil => rfl
  | cons s t ih =>
    simp only [List.map_cons, List.cons.injEq]
    exact ⟨fromBase64_toBase64 s (hs s (by simp)),
      ih (fun x hx => hs x (by simp [hx]))⟩

/-- C4: broadcasting via the decomposed-parts path
(`broadcastTxSyncFromDirectSignDocAndSignature`) submits to the chain
exactly the byte sequence that `broadcastTxSync` submits when given the
pre-assembled raw transaction (the `TxRaw` encoding of the same
body/auth/signatures triple). -/
theorem broadcast_parts_eq_raw (body auth : List ℕ) (sigs : List (List ℕ))
    (hb : BytesValid body) (ha : BytesValid auth) (hs : ∀ s ∈ sigs, BytesValid s) :
    broadcastFromDirectPartsBytes (toBase64 body) (toBase64 auth) (sigs.map toBase64) =
      broadcastTxSyncBytes (toBase64 (txRawEncode ⟨body, auth, sigs⟩)) := by
  unfold broadcastFromDirectPartsBytes broadcastTxSyncBytes
  rw [fromBase64_toBase64 body hb, fromBase64_toBase64 auth ha,
    map_fromBase64_toBase64 sigs hs, fromBase64_toBase64 _ (txRawEncode_valid hb ha hs)]

/-- C4 witness: the two broadcast paths agree on a concrete
body/auth/signatures triple. -/
theorem broadcast_parts_eq_raw_witness :
    BytesValid [1] ∧ BytesValid [2] ∧ (∀ s ∈ [[3], [4]], BytesValid s) ∧
    broadcastFromDirectPartsBytes (toBase64 [1]) (toBase64 [2]) ([[3], [4]].map toBase64) =
      broadcastTxSyncBytes (toBase64 (txRawEncode ⟨[1], [2], [[3], [4]]⟩)) :=
  ⟨by decide, by decide, by decide,
    broadcast_parts_eq_raw [1] [2] [[3], [4]] (by decide) (by decide) (by decide)⟩

/-- C1: for every positive simulated gas, the fee computed by
`buildSignDoc` in `"auto"` mode has `gasLimit ≥ simulatedGas`, in both
variants (variant 1 for any gas multiplier ≥ 1, which covers its default
1.5; variant 2 under any chain-registry environment). -/
theorem auto_fee_gasLimit_ge_simulatedGas (m : ℚ) (g : ℕ) (common : V2CommonEnv)
    (fee1 fee2 : StdFee) (hm : 1 ≤ m) (hg : 0 < g)
    (h1 : v1ComputeAutoFee m g = .ok fee1)
    (h2 : v2ComputeAutoFee common g = .ok fee2) :
    g ≤ fee1.gas ∧ g ≤ fee2.gas := by
  constructor
  · have hle : (g : ℤ) ≤ jsToFixed0 ((g : ℚ) * m) := by
      unfold jsToFixed0
      rw [Int.le_floor]
      push_cast
      nlinarith [Nat.cast_nonneg (α := ℚ) g]
    unfold v1ComputeAutoFee calculateFee at h1
    rw [if_neg (by omega)] at h1
    injection h1 with h1
    rw [← h1]
    simp only []
    omega
  · rcases common with ⟨ci⟩
    rcases ci with _ | fcs
    · simp [v2ComputeAutoFee] at h2
    · rcases fcs with _ | ⟨fc, rest⟩
      · simp [v2ComputeAutoFee] at h2
      · unfold v2ComputeAutoFee calculateFee at h2
        simp only [List.head?] at h2
        rw [if_neg (by omega)] at h2
        injection h2 with h2
        rw [← h2]
        simp only []
        omega

/-- C1 witness: variant 1 at the default multiplier 1.5 with simulated
gas 80000 yields gas limit 120000 ≥ 80000; variant 2 yields 80000. -/
theorem auto_fee_gasLimit_ge_simulatedGas_witness :
    (1 : ℚ) ≤ 3/2 ∧ 0 < 80000 ∧
    v1ComputeAutoFee (3/2) 80000 = .ok ⟨[⟨"orai", 120⟩], 120000, none, none⟩ ∧
    v2ComputeAutoFee ⟨some [⟨none⟩]⟩ 80000 = .ok ⟨[⟨"orai", 80⟩], 80000, none, none⟩ ∧
    (80000 ≤ (StdFee.mk [⟨"orai", 120⟩] 120000 none none).gas ∧
      80000 ≤ (StdFee.mk [⟨"orai", 80⟩] 80000 none none).gas) :=
  have hv1 : v1ComputeAutoFee (3/2) 80000 = .ok ⟨[⟨"orai", 120⟩], 120000, none, none⟩ := by
    norm_num [v1ComputeAutoFee, calculateFee, jsToFixed0]
    omega
  have hv2 : v2ComputeAutoFee ⟨some [⟨none⟩]⟩ 80000 = .ok ⟨[⟨"orai", 80⟩], 80000, none, none⟩ := by
    norm_num [v2ComputeAutoFee, calculateFee]
    omega
  ⟨by norm_num, by norm_num, hv1, hv2,
    auto_fee_gasLimit_ge_simulatedGas (3/2) 80000 ⟨some [⟨none⟩]⟩ _ _
      (by norm_num) (by norm_num) hv1 hv2⟩

/-- C2 counterexample: with simulated gas 80000 (the spec's scenario of a
1.4 multiplier, which is variant 2's declared `gasMultiplier`), variant
2's auto mode produces gas limit 80000, not 112000: the multiplier is
never applied. -/
theorem v2_auto_fee_ignores_multiplier :
    (v2ComputeAutoFee ⟨some [⟨none⟩]⟩ 80000).map StdFee.gas = .ok 80000 ∧
    (v2ComputeAutoFee ⟨some [⟨none⟩]⟩ 80000).map StdFee.gas ≠ .ok 112000 := by
  have h : v2ComputeAutoFee ⟨some [⟨none⟩]⟩ 80000 = .ok ⟨[⟨"orai", 80⟩], 80000, none, none⟩ := by
    norm_num [v2ComputeAutoFee, calculateFee]
    omega
  rw [h]
  exact ⟨rfl, by simp [Except.map]⟩

theorem jsToFixed0_half_int (k : ℕ) : jsToFixed0 ((k : ℚ) / 2) = ⌈(k : ℚ) / 2⌉ := by
  unfold jsToFixed0
  rcases Nat.even_or_odd k with ⟨j, hj⟩ | ⟨j, hj⟩
  · subst hj
    have h1 : ((j + j : ℕ) : ℚ) / 2 = ((j : ℤ) : ℚ) := by push_cast; ring
    rw [h1, Int.floor_int_add, Int.ceil_intCast]
    norm_num
  · subst hj
    have h1 : ((2 * j + 1 : ℕ) : ℚ) / 2 = 1/2 + ((j : ℤ) : ℚ) := by push_cast; ring
    rw [h1]
    rw [show (1/2 : ℚ) + ((j : ℤ) : ℚ) + 1/2 = ((j + 1 : ℤ) : ℚ) by push_cast; ring]
    rw [Int.floor_intCast, Int.ceil_add_int]
    rw [show (⌈(1/2 : ℚ)⌉ : ℤ) = 1 from by rw [Int.ceil_eq_iff]; norm_num]
    ring

/-- C2 (amended): in `"auto"` mode, variant 1 sets the gas limit to
`(gasUsed * gasMultiplier).toFixed(0)` — round half away from zero, which
at the default multiplier 1.5 coincides with `ceil(gasUsed * 1.5)` and
which at multiplier 1.4 and simulated gas 80000 yields 112000; variant 2
never applies `gasMultiplier` and uses the simulated gas unchanged as the
gas limit. -/
theorem auto_fee_gasLimit_formula :
    (∀ (m : ℚ) (g : ℕ) (fee : StdFee), v1ComputeAutoFee m g = .ok fee →
      (fee.gas : ℤ) = jsToFixed0 ((g : ℚ) * m)) ∧
    (∀ (g : ℕ) (fee : StdFee), v1ComputeAutoFee v1DefaultGasMultiplier g = .ok fee →
      (fee.gas : ℤ) = ⌈(g : ℚ) * v1DefaultGasMultiplier⌉) ∧
    ((v1ComputeAutoFee (7/5) 80000).map StdFee.gas = .ok 112000) ∧
    (∀ (common : V2CommonEnv) (g : ℕ) (fee : StdFee),
      v2ComputeAutoFee common g = .ok fee → fee.gas = g) := by
  have hgen : ∀ (m : ℚ) (g : ℕ) (fee : StdFee), v1ComputeAutoFee m g = .ok fee →
      (fee.gas : ℤ) = jsToFixed0 ((g : ℚ) * m) := by
    intro m g fee h
    unfold v1ComputeAutoFee calculateFee at h
    by_cases hneg : jsToFixed0 ((g : ℚ) * m) < 0
    · rw [if_pos hneg] at h
      exact absurd h (by simp)
    · rw [if_neg hneg] at h
      injection h with h
      rw [← h]
      simp only []
      omega
  refine ⟨hgen, fun g fee h => ?_, ?_, ?_⟩
  · rw [hgen v1DefaultGasMultiplier g fee h]
    have hq : (g : ℚ) * v1DefaultGasMultiplier = ((3 * g : ℕ) : ℚ) / 2 := by
      unfold v1DefaultGasMultiplier
      push_cast
      ring
    rw [hq, jsToFixed0_half_int]
  · have h : v1ComputeAutoFee (7/5) 80000 = .ok ⟨[⟨"orai", 112⟩], 112000, none, none⟩ := by
      norm_num [v1ComputeAutoFee, calculateFee, jsToFixed0]
      omega
    rw [h]
    rfl
  · intro common g fee h
    rcases common with ⟨ci⟩
    rcases ci with _ | fcs
    · simp [v2ComputeAutoFee] at h
    · rcases fcs with _ | ⟨fc, rest⟩
      · simp [v2ComputeAutoFee] at h
      · unfold v2ComputeAutoFee calculateFee at h
        simp only [List.head?] at h
        rw [if_neg (by omega)] at h
        injection h with h
        rw [← h]
        simp only []
        omega

/-- C2 witness: the amended formulas evaluated at concrete gas values
(variant 1 default multiplier at gas 3 gives 5 = ⌈4.5⌉; variant 2 at gas
7 gives 7). -/
theorem auto_fee_gasLimit_formula_witness :
    v1ComputeAutoFee v1DefaultGasMultiplier 3 = .ok ⟨[⟨"orai", 1⟩], 5, none, none⟩ ∧
    ((5 : ℕ) : ℤ) = ⌈(3 : ℚ) * v1DefaultGasMultiplier⌉ ∧
    v2ComputeAutoFee ⟨some [⟨none⟩]⟩ 7 = .ok ⟨[⟨"orai", 1⟩], 7, none, none⟩ ∧
    (StdFee.mk [⟨"orai", 1⟩] 7 none none).gas = 7 :=
  have hv1 : v1ComputeAutoFee v1DefaultGasMultiplier 3 =
      .ok ⟨[⟨"orai", 1⟩], 5, none, none⟩ := by
    norm_num [v1ComputeAutoFee, v1DefaultGasMultiplier, calculateFee, jsToFixed0]
    rw [show (⌈(1/200 : ℚ)⌉ : ℤ) = 1 from by rw [Int.ceil_eq_iff]; norm_num]
    omega
  have hv2 : v2ComputeAutoFee ⟨some [⟨none⟩]⟩ 7 = .ok ⟨[⟨"orai", 1⟩], 7, none, none⟩ := by
    norm_num [v2ComputeAutoFee, calculateFee]
    rw [show (⌈(7/1000 : ℚ)⌉ : ℤ) = 1 from by rw [Int.ceil_eq_iff]; norm_num]
    omega
  ⟨hv1,
    by
      have := auto_fee_gasLimit_formula.2.1 3 ⟨[⟨"orai", 1⟩], 5, none, none⟩ hv1
      simpa using this,
    hv2, auto_fee_gasLimit_formula.2.2.2 ⟨some [⟨none⟩]⟩ 7 ⟨[⟨"orai", 1⟩], 7, none, none⟩ hv2⟩

/-- C3: when gas simulation fails (the chain call errors or returns no
gas info), `buildSignDoc` in `"auto"` mode propagates the failure in both
variants; and any `"auto"`-mode sign doc it does return embeds auth-info
bytes built from a fee computed out of an actually simulated gas value —
never a default or zero gas limit. -/
theorem buildSignDoc_propagates_simulation_failure (mult : ℚ) (common : V2CommonEnv)
    (env : ChainEnv) (sender pk : String) (msgs : List AnyMsg) (memo : String)
    (th : Option ℕ)
    (hpk : compressedSecpPubkey (fromBase64 pk) = true) :
    (env.simulateGas msgs memo (fromBase64 pk) (env.accountOf sender).2 = none →
      v1BuildSignDoc mult env sender pk msgs .auto memo th = .error .simulationFailed ∧
      v2BuildSignDoc common env sender pk msgs .auto memo th = .error .simulationFailed) ∧
    (∀ sd, v1BuildSignDoc mult env sender pk msgs .auto memo th = .ok sd →
      ∃ g fee,
        env.simulateGas msgs memo (fromBase64 pk) (env.accountOf sender).2 = some g ∧
        v1ComputeAutoFee mult g = .ok fee ∧
        sd.authInfoBytes = makeAuthInfoBytes (encodePubkey (fromBase64 pk))
          (env.accountOf sender).2 fee.amount fee.gas fee.granter fee.payer signModeDirect) ∧
    (∀ sd, v2BuildSignDoc common env sender pk msgs .auto memo th = .ok sd →
      ∃ g fee,
        env.simulateGas msgs memo (fromBase64 pk) (env.accountOf sender).2 = some g ∧
        v2ComputeAutoFee common g = .ok fee ∧
        sd.authInfoBytes = makeAuthInfoBytes (encodePubkey (fromBase64 pk))
          (env.accountOf sender).2 fee.amount fee.gas fee.granter fee.payer signModeDirect) := by
  have hok : encodeSecp256k1Pubkey (fromBase64 pk) = .ok (fromBase64 pk) := by
    unfold encodeSecp256k1Pubkey
    rw [if_pos hpk]
  refine ⟨fun hsim => ?_, fun sd h => ?_, fun sd h => ?_⟩
  · constructor
    · simp only [v1BuildSignDoc, hok, kitSimulate, hsim]
    · simp only [v2BuildSignDoc, hok, kitSimulate, hsim]
  · rcases hsim : env.simulateGas msgs memo (fromBase64 pk) (env.accountOf sender).2 with
      _ | g
    · simp only [v1BuildSignDoc, hok, kitSimulate, hsim] at h
      exact absurd h (by simp)
    · simp only [v1BuildSignDoc, hok, kitSimulate, hsim] at h
      rcases hfee : v1ComputeAutoFee mult g with e | fee
      · simp only [hfee] at h
        exact absurd h (by simp)
      · simp only [hfee, Except.ok.injEq] at h
        exact ⟨g, fee, rfl, hfee, by rw [← h]⟩
  · rcases hsim : env.simulateGas msgs memo (fromBase64 pk) (env.accountOf sender).2 with
      _ | g
    · simp only [v2BuildSignDoc, hok, kitSimulate, hsim] at h
      exact absurd h (by simp)
    · simp only [v2BuildSignDoc, hok, kitSimulate, hsim] at h
      rcases hfee : v2ComputeAutoFee common g with e | fee
      · simp only [hfee] at h
        exact absurd h (by simp)
      · simp only [hfee, Except.ok.injEq] at h
        exact ⟨g, fee, rfl, hfee, by rw [← h]⟩

/-- C3 witness: a concrete environment whose simulation yields no gas
info makes both variants' auto-mode `buildSignDoc` fail with the
simulation error. -/
theorem buildSignDoc_propagates_simulation_failure_witness :
    v1BuildSignDoc 1 ⟨fun _ => (0, 0), "", fun _ _ _ _ => none⟩ "orai1s" examplePubkeyB64
      [] .auto "" none = .error .simulationFailed ∧
    v2BuildSignDoc ⟨none⟩ ⟨fun _ => (0, 0), "", fun _ _ _ _ => none⟩ "orai1s"
      examplePubkeyB64 [] .auto "" none = .error .simulationFailed :=
  (buildSignDoc_propagates_simulation_failure 1 ⟨none⟩
    ⟨fun _ => (0, 0), "", fun _ _ _ _ => none⟩ "orai1s" examplePubkeyB64 [] "" none
    (by decide)).1 rfl

/-- C9: normalizing a sign-doc-plus-signature pair to a `TxRaw` preserves
the signed bytes.  Variant 1's `buildTxRawBuffer`/`broadcastSignDocBase64`
submit exactly the decoded sign doc's body and auth-info bytes with the
single decoded signature.  Variant 2 routes the signature through
`encodeSecp256k1Signature`, which is the identity on 64-byte signatures
(and rejects other lengths before anything is submitted). -/
theorem broadcastSignDoc_preserves_bytes :
    (∀ (sd : SignDoc) (sig : String),
      v1BuildTxRawBuffer sd sig =
        txRawEncode ⟨sd.bodyBytes, sd.authInfoBytes, [fromBase64 sig]⟩) ∧
    (∀ (docB64 sig : String) (sd : SignDoc),
      signDocDecode (fromBase64 docB64) = some sd →
      v1BroadcastSignDocBase64 docB64 sig =
        .ok (txRawEncode ⟨sd.bodyBytes, sd.authInfoBytes, [fromBase64 sig]⟩)) ∧
    (∀ (sd : SignDoc) (pub sigBytes : List ℕ),
      BytesValid pub → compressedSecpPubkey pub = true →
      BytesValid sigBytes → sigBytes.length = 64 →
      v2BuildTxRawBuffer sd (toBase64 pub) (toBase64 sigBytes) =
        .ok (txRawEncode ⟨sd.bodyBytes, sd.authInfoBytes, [sigBytes]⟩)) ∧
    (∀ (sd : SignDoc) (pub : String) (sigBytes : List ℕ),
      BytesValid sigBytes → sigBytes.length ≠ 64 →
      v2BuildTxRawBuffer sd pub (toBase64 sigBytes) = .error .invalidSignature) := by
  refine ⟨fun sd sig => rfl, fun docB64 sig sd hdec => ?_, ?_, ?_⟩
  · unfold v1BroadcastSignDocBase64
    rw [hdec]
    rfl
  · intro sd pub sigBytes hpv hpk hsv hlen
    have hsig : encodeSecp256k1Signature (fromBase64 (toBase64 pub))
        (fromBase64 (toBase64 sigBytes)) = .ok ⟨pub, toBase64 sigBytes⟩ := by
      rw [fromBase64_toBase64 pub hpv, fromBase64_toBase64 sigBytes hsv]
      unfold encodeSecp256k1Signature encodeSecp256k1Pubkey
      rw [hlen]
      simp [hpk]
    unfold v2BuildTxRawBuffer
    rw [hsig]
    show Except.ok (txRawEncode ⟨sd.bodyBytes, sd.authInfoBytes,
        [fromBase64 (toBase64 sigBytes)]⟩) =
      Except.ok (txRawEncode ⟨sd.bodyBytes, sd.authInfoBytes, [sigBytes]⟩)
    rw [fromBase64_toBase64 sigBytes hsv]
  · intro sd pub sigBytes hsv hlen
    have hsig : encodeSecp256k1Signature (fromBase64 pub)
        (fromBase64 (toBase64 sigBytes)) = .error .invalidSignature := by
      rw [fromBase64_toBase64 sigBytes hsv]
      unfold encodeSecp256k1Signature
      rw [if_pos hlen]
    unfold v2BuildTxRawBuffer
    rw [hsig]

/-- C9 witness: both variants at concrete inputs (a decodable sign doc,
a valid compressed pubkey, a 64-byte signature). -/
theorem broadcastSignDoc_preserves_bytes_witness :
    signDocDecode (fromBase64 (toBase64 (signDocEncode ⟨[5], [7], "x", 3⟩))) =
        some ⟨[5], [7], "x", 3⟩ ∧
    BytesValid (2 :: List.replicate 32 0) ∧
    compressedSecpPubkey (2 :: List.replicate 32 0) = true ∧
    BytesValid (List.replicate 64 1) ∧ (List.replicate 64 1 : List ℕ).length = 64 ∧
    v1BroadcastSignDocBase64 (toBase64 (signDocEncode ⟨[5], [7], "x", 3⟩)) (toBase64 [9]) =
      .ok (txRawEncode ⟨[5], [7], [fromBase64 (toBase64 [9])]⟩) ∧
    v2BuildTxRawBuffer ⟨[5], [7], "x", 3⟩ (toBase64 (2 :: List.replicate 32 0))
        (toBase64 (List.replicate 64 1)) =
      .ok (txRawEncode ⟨[5], [7], [List.replicate 64 1]⟩) :=
  ⟨by decide, by decide, by decide, by decide, by decide,
    broadcastSignDoc_preserves_bytes.2.1 (toBase64 (signDocEncode ⟨[5], [7], "x", 3⟩))
      (toBase64 [9]) ⟨[5], [7], "x", 3⟩ (by decide),
    broadcastSignDoc_preserves_bytes.2.2.1 ⟨[5], [7], "x", 3⟩ (2 :: List.replicate 32 0)
      (List.replicate 64 1) (by decide) (by decide) (by decide) (by decide)⟩

theorem encodeSecp256k1Pubkey_ok_eq {pk out : List ℕ}
    (h : encodeSecp256k1Pubkey pk = .ok out) : out = pk := by
  unfold encodeSecp256k1Pubkey at h
  cases hc : compressedSecpPubkey pk
  · rw [hc] at h
    simp at h
  · rw [hc] at h
    simp at h
    exact h.symm

theorem v1BuildSignDoc_fixed_ok {mult : ℚ} {env : ChainEnv} {sender pk : String}
    {msgs : List AnyMsg} {fee : StdFee} {memo : String} {th : Option ℕ} {sd : SignDoc}
    (h : v1BuildSignDoc mult env sender pk msgs (.fixed fee) memo th = .ok sd) :
    sd = ⟨txBodyEncode msgs memo (th.getD 0),
      makeAuthInfoBytes (encodePubkey (fromBase64 pk)) (env.accountOf sender).2
        fee.amount fee.gas fee.granter fee.payer signModeDirect,
      env.chainId, (env.accountOf sender).1⟩ := by
  rcases hpk : encodeSecp256k1Pubkey (fromBase64 pk) with e | secpPk
  · simp only [v1BuildSignDoc, hpk] at h
    exact absurd h (by simp)
  · obtain rfl : secpPk = fromBase64 pk := encodeSecp256k1Pubkey_ok_eq hpk
    simp only [v1BuildSignDoc, hpk, Except.ok.injEq] at h
    exact h.symm

theorem v1BuildSignDoc_auto_ok {mult : ℚ} {env : ChainEnv} {sender pk : String}
    {msgs : List AnyMsg} {memo : String} {th : Option ℕ} {sd : SignDoc}
    (h : v1BuildSignDoc mult env sender pk msgs .auto memo th = .ok sd) :
    ∃ g fee,
      env.simulateGas msgs memo (fromBase64 pk) (env.accountOf sender).2 = some g ∧
      v1ComputeAutoFee mult g = .ok fee ∧
      sd = ⟨txBodyEncode msgs memo (th.getD 0),
        makeAuthInfoBytes (encodePubkey (fromBase64 pk)) (env.accountOf sender).2
          fee.amount fee.gas fee.granter fee.payer signModeDirect,
        env.chainId, (env.accountOf sender).1⟩ := by
  rcases hpk : encodeSecp256k1Pubkey (fromBase64 pk) with e | secpPk
  · simp only [v1BuildSignDoc, hpk] at h
    exact absurd h (by simp)
  · obtain rfl : secpPk = fromBase64 pk := encodeSecp256k1Pubkey_ok_eq hpk
    rcases hsim : env.simulateGas msgs memo (fromBase64 pk) (env.accountOf sender).2 with
      _ | g
    · simp only [v1BuildSignDoc, hpk, kitSimulate, hsim] at h
      exact absurd h (by simp)
    · simp only [v1BuildSignDoc, hpk, kitSimulate, hsim] at h
      rcases hfee : v1ComputeAutoFee mult g with e | fee
      · simp only [hfee] at h
        exact absurd h (by simp)
      · simp only [hfee, Except.ok.injEq] at h
        exact ⟨g, fee, rfl, hfee, h.symm⟩

theorem v2BuildSignDoc_fixed_ok {common : V2CommonEnv} {env : ChainEnv}
    {sender pk : String} {msgs : List AnyMsg} {fee : StdFee} {memo : String}
    {th : Option ℕ} {sd : SignDoc}
    (h : v2BuildSignDoc common env sender pk msgs (.fixed fee) memo th = .ok sd) :
    sd = ⟨txBodyEncode msgs memo (th.getD 0),
      makeAuthInfoBytes (encodePubkey (fromBase64 pk)) (env.accountOf sender).2
        fee.amount fee.gas fee.granter fee.payer signModeDirect,
      env.chainId, (env.accountOf sender).1⟩ := by
  rcases hpk : encodeSecp256k1Pubkey (fromBase64 pk) with e | secpPk
  · simp only [v2BuildSignDoc, hpk] at h
    exact absurd h (by simp)
  · obtain rfl : secpPk = fromBase64 pk := encodeSecp256k1Pubkey_ok_eq hpk
    simp only [v2BuildSignDoc, hpk, Except.ok.injEq] at h
    exact h.symm

/-- C7: a `buildSignDoc` call leaves the kit object unchanged, so two
calls with the same arguments against unchanged chain state return
identical results; and every returned sign doc carries the account number,
chain id and (inside its auth-info bytes) the sequence read live from the
chain at call time — there is no local cache. -/
theorem buildSignDoc_deterministic (kit : KitState) (env : ChainEnv)
    (sender pk : String) (msgs : List AnyMsg) (fee : FeeArg) (memo : String)
    (th : Option ℕ) :
    (v1BuildSignDocCall kit env sender pk msgs fee memo th).2 = kit ∧
    (v1BuildSignDocCall ((v1BuildSignDocCall kit env sender pk msgs fee memo th).2)
        env sender pk msgs fee memo th).1 =
      (v1BuildSignDocCall kit env sender pk msgs fee memo th).1 ∧
    (∀ sd, (v1BuildSignDocCall kit env sender pk msgs fee memo th).1 = .ok sd →
      sd.accountNumber = (env.accountOf sender).1 ∧ sd.chainId = env.chainId ∧
      ∃ fee2 : StdFee, sd.authInfoBytes = makeAuthInfoBytes (encodePubkey (fromBase64 pk))
        (env.accountOf sender).2 fee2.amount fee2.gas fee2.granter fee2.payer
        signModeDirect) := by
  refine ⟨rfl, rfl, fun sd h => ?_⟩
  rcases fee with _ | f
  · obtain ⟨g, fee2, _, _, rfl⟩ :=
      @v1BuildSignDoc_auto_ok kit.gasMultiplier env sender pk msgs memo th sd h
    exact ⟨rfl, rfl, fee2, rfl⟩
  · obtain rfl := @v1BuildSignDoc_fixed_ok kit.gasMultiplier env sender pk msgs f memo th sd h
    exact ⟨rfl, rfl, f, rfl⟩

/-- C7 witness: the second of two identical calls on the example
environment returns the same result, and the built sign doc carries the
chain's account number 7, chain id, and sequence 5. -/
theorem buildSignDoc_deterministic_witness :
    (v1BuildSignDocCall ⟨3/2⟩ exampleChainEnv "a" examplePubkeyB64 []
        (.fixed exampleFixedFee) "" none).1 = .ok exampleSd ∧
    (exampleSd.accountNumber = (exampleChainEnv.accountOf "a").1 ∧
      exampleSd.chainId = exampleChainEnv.chainId ∧
      ∃ fee2 : StdFee, exampleSd.authInfoBytes =
        makeAuthInfoBytes (encodePubkey (fromBase64 examplePubkeyB64))
          (exampleChainEnv.accountOf "a").2 fee2.amount fee2.gas fee2.granter fee2.payer
          signModeDirect) :=
  have hEq : (v1BuildSignDocCall ⟨3/2⟩ exampleChainEnv "a" examplePubkeyB64 []
      (.fixed exampleFixedFee) "" none).1 = .ok exampleSd := by decide
  ⟨hEq, (buildSignDoc_deterministic ⟨3/2⟩ exampleChainEnv "a" examplePubkeyB64 []
      (.fixed exampleFixedFee) "" none).2.2 exampleSd hEq⟩

/-- C8: the auth-info bytes of a built sign doc depend only on the signer
pubkey, the live-read sequence, and the fee: with an explicit fee, varying
messages, memo and timeout height leaves `authInfoBytes` unchanged (in
both variants); in auto mode, varying the timeout height alone leaves
`authInfoBytes` unchanged; and the timeout height is encoded into the
body bytes. -/
theorem authInfo_independent_of_body (mult : ℚ) (common : V2CommonEnv) (env : ChainEnv)
    (sender pk : String) (fee : StdFee) (msgs msgs2 : List AnyMsg) (memo memo2 : String)
    (th th2 : Option ℕ) :
    (∀ sd sd2, v1BuildSignDoc mult env sender pk msgs (.fixed fee) memo th = .ok sd →
      v1BuildSignDoc mult env sender pk msgs2 (.fixed fee) memo2 th2 = .ok sd2 →
      sd.authInfoBytes = sd2.authInfoBytes) ∧
    (∀ sd sd2, v1BuildSignDoc mult env sender pk msgs .auto memo th = .ok sd →
      v1BuildSignDoc mult env sender pk msgs .auto memo th2 = .ok sd2 →
      sd.authInfoBytes = sd2.authInfoBytes) ∧
    (∀ sd, v1BuildSignDoc mult env sender pk msgs (.fixed fee) memo th = .ok sd →
      sd.bodyBytes = txBodyEncode msgs memo (th.getD 0)) ∧
    (∀ sd sd2, v2BuildSignDoc common env sender pk msgs (.fixed fee) memo th = .ok sd →
      v2BuildSignDoc common env sender pk msgs2 (.fixed fee) memo2 th2 = .ok sd2 →
      sd.authInfoBytes = sd2.authInfoBytes) := by
  refine ⟨fun sd sd2 h1 h2 => ?_, fun sd sd2 h1 h2 => ?_, fun sd h1 => ?_,
    fun sd sd2 h1 h2 => ?_⟩
  · obtain rfl := v1BuildSignDoc_fixed_ok h1
    obtain rfl := v1BuildSignDoc_fixed_ok h2
    rfl
  · obtain ⟨g, fee1, hs1, hf1, rfl⟩ := v1BuildSignDoc_auto_ok h1
    obtain ⟨g2, fee2, hs2, hf2, rfl⟩ := v1BuildSignDoc_auto_ok h2
    obtain rfl : g = g2 := Option.some.inj (hs1.symm.trans hs2)
    obtain rfl : fee1 = fee2 := Except.ok.inj (hf1.symm.trans hf2)
    rfl
  · obtain rfl := v1BuildSignDoc_fixed_ok h1
    rfl
  · obtain rfl := v2BuildSignDoc_fixed_ok h1
    obtain rfl := v2BuildSignDoc_fixed_ok h2
    rfl

/-- C8 witness: on the example environment, builds with memo "m" and
timeout 9 versus one message, empty memo and no timeout share the same
auth-info bytes, and the first body encodes the timeout. -/
theorem authInfo_independent_of_body_witness :
    v1BuildSignDoc (3/2) exampleChainEnv "a" examplePubkeyB64 []
      (.fixed exampleFixedFee) "m" (some 9) = .ok exampleSdA ∧
    v1BuildSignDoc (3/2) exampleChainEnv "a" examplePubkeyB64 [⟨"/a", [1]⟩]
      (.fixed exampleFixedFee) "" none = .ok exampleSdB ∧
    exampleSdA.authInfoBytes = exampleSdB.authInfoBytes ∧
    exampleSdA.bodyBytes = txBodyEncode [] "m" 9 :=
  have hpkc : compressedSecpPubkey (fromBase64 examplePubkeyB64) = true := by decide
  have h1 : v1BuildSignDoc (3/2) exampleChainEnv "a" examplePubkeyB64 []
      (.fixed exampleFixedFee) "m" (some 9) = .ok exampleSdA := by decide
  have h2 : v1BuildSignDoc (3/2) exampleChainEnv "a" examplePubkeyB64 [⟨"/a", [1]⟩]
      (.fixed exampleFixedFee) "" none = .ok exampleSdB := by decide
  ⟨h1, h2,
    (authInfo_independent_of_body (3/2) ⟨none⟩ exampleChainEnv "a" examplePubkeyB64
      exampleFixedFee [] [⟨"/a", [1]⟩] "m" "" (some 9) none).1 exampleSdA exampleSdB h1 h2,
    (authInfo_independent_of_body (3/2) ⟨none⟩ exampleChainEnv "a" examplePubkeyB64
      exampleFixedFee [] [⟨"/a", [1]⟩] "m" "" (some 9) none).2.2.1 exampleSdA h1⟩

/-- C5 counterexample: a genuine protobuf direct sign doc whose encoding
happens to read as JSON is accepted and signed by the amino path — the
code performs no scheme check, so signing a direct sign doc with the
amino scheme can return a signature instead of failing. -/
theorem signAmino_accepts_direct_signdoc :
    (signerSignAmino exampleSignerEnv
      (toBase64 (signDocEncode jsonLookalikeSignDoc)) 0).isOk = true := by
  decide

/-- C5 (amended): the signing paths perform no scheme check and no
`SchemeMismatch` error exists; for a valid account index, `signDirect`
fails exactly when protobuf decoding of the payload fails and `signAmino`
fails exactly when `JSON.parse` of the payload fails — whatever bytes
parse under the requested scheme are signed. -/
theorem sign_fails_only_on_parse_failure (env : SignerEnv) (b64 : String) (idx : ℕ)
    (h : idx < env.accounts.length) :
    ((signerSignDirect env b64 idx).isOk = true ↔
      (signDocDecode (fromBase64 b64)).isSome = true) ∧
    ((signerSignAmino env b64 idx).isOk = true ↔
      (jsonParse (utf8Decode (fromBase64 b64))).isSome = true) := by
  have hidx : env.accounts[idx]? = some env.accounts[idx] := List.getElem?_eq_getElem h
  have hfind : ∀ w : WalletAccount, w ∈ env.accounts →
      ∃ acc, env.accounts.find? (fun a => a.address == w.address) = some acc := by
    intro w hw
    have : (env.accounts.find? (fun a => a.address == w.address)).isSome := by
      rw [List.find?_isSome]
      exact ⟨w, hw, by simp⟩
    rcases hf : env.accounts.find? (fun a => a.address == w.address) with _ | acc
    · rw [hf] at this
      simp at this
    · exact ⟨acc, hf⟩
  obtain ⟨acc, hacc⟩ := hfind env.accounts[idx] (List.getElem_mem h)
  constructor
  · rcases hdec : signDocDecode (fromBase64 b64) with _ | sd
    · simp [signerSignDirect, hdec, Except.isOk, Except.toBool]
    · simp [signerSignDirect, hdec, hidx, hacc, Except.isOk, Except.toBool]
  · rcases hp : jsonParse (utf8Decode (fromBase64 b64)) with _ | doc
    · simp [signerSignAmino, hp, Except.isOk, Except.toBool]
    · simp [signerSignAmino, hp, hidx, hacc, Except.isOk, Except.toBool]

/-- C5 witness: on the example signer environment, a decodable direct
payload is signed and an undecodable one fails, matching the parse
criterion. -/
theorem sign_fails_only_on_parse_failure_witness :
    0 < exampleSignerEnv.accounts.length ∧
    ((signerSignDirect exampleSignerEnv (toBase64 (signDocEncode ⟨[5], [7], "x", 3⟩))
        0).isOk = true ↔
      (signDocDecode (fromBase64 (toBase64 (signDocEncode ⟨[5], [7], "x", 3⟩)))).isSome =
        true) ∧
    (signDocDecode (fromBase64 (toBase64 (signDocEncode ⟨[5], [7], "x", 3⟩)))).isSome =
      true :=
  ⟨by decide,
    (sign_fails_only_on_parse_failure exampleSignerEnv
      (toBase64 (signDocEncode ⟨[5], [7], "x", 3⟩)) 0 (by decide)).1,
    by decide⟩

/-- C6 counterexample: a payload declaring account number 999 is signed
by `signDirect` even though the chain-known account number of the key
handle's account is 7 — no cross-account check exists. -/
theorem signDirect_ignores_declared_account :
    (signerSignDirect exampleSignerEnv
      (toBase64 (signDocEncode ⟨[1], [2], "Oraichain", 999⟩)) 0).isOk = true ∧
    (SignDoc.mk [1] [2] "Oraichain" 999).accountNumber ≠
      (exampleSignerEnv.chainAccountOf "orai1addr").1 := by
  constructor
  · decide
  · decide

/-- C6 (amended): neither signing path reads the chain-known account
state at all — the result of `sign` (direct or amino) is unchanged under
arbitrary replacement of the chain account map, so payloads whose
declared account number or sequence disagree with the chain are signed,
not rejected. -/
theorem sign_ignores_chain_account_state (accounts : List WalletAccount)
    (ca ca2 : String → ℕ × ℕ) (ds : String → List ℕ → List ℕ)
    (asgn : String → Json → List ℕ) (b64 : String) (idx : ℕ) (direct : Bool) :
    signerSign ⟨accounts, ca, ds, asgn⟩ b64 idx direct =
      signerSign ⟨accounts, ca2, ds, asgn⟩ b64 idx direct := rfl

/-- C10: each transaction tool `_call` result is the JSON rendering of a
structure whose status is `"success"` or `"error"`; a thrown error is
mapped to `{status: "error", message, code}` with the code defaulting to
`"UNKNOWN_ERROR"` when the error carries none; no outcome escapes the
try/catch. -/
theorem tool_call_status_and_error_mapping :
    (∀ o, broadcastTxToolCall o = renderToolResult (broadcastTxToolCallResult o)) ∧
    (∀ o, (broadcastTxToolCallResult o).status = "success" ∨
      (broadcastTxToolCallResult o).status = "error") ∧
    (∀ e, broadcastTxToolCallResult (.error e) =
      ⟨"error", e.message, some (jsErrorCode e), none⟩) ∧
    (∀ e, e.code = none → jsErrorCode e = "UNKNOWN_ERROR") ∧
    (∀ idx o, signToolCall idx o = renderToolResult (signToolCallResult idx o)) ∧
    (∀ idx o, (signToolCallResult idx o).status = "success" ∨
      (signToolCallResult idx o).status = "error") ∧
    (∀ idx e, signToolCallResult idx (.error e) =
      ⟨"error", e.message, some (jsErrorCode e), none⟩) := by
  refine ⟨fun o => rfl, fun o => ?_, fun e => rfl, fun e he => ?_, fun idx o => rfl,
    fun idx o => ?_, fun idx e => rfl⟩
  · cases o <;> simp [broadcastTxToolCallResult]
  · simp [jsErrorCode, he]
  · cases o <;> simp [signToolCallResult]

/-- C10 witness: a thrown error without a code maps to status "error"
with code "UNKNOWN_ERROR"; a success maps to status "success". -/
theorem tool_call_status_and_error_mapping_witness :
    broadcastTxToolCallResult (.error ⟨"boom", none⟩) =
      ⟨"error", "boom", some "UNKNOWN_ERROR", none⟩ ∧
    jsErrorCode ⟨"boom", none⟩ = "UNKNOWN_ERROR" ∧
    ((broadcastTxToolCallResult (.ok "h")).status = "success" ∨
      (broadcastTxToolCallResult (.ok "h")).status = "error") := by
  have hmain := tool_call_status_and_error_mapping
  refine ⟨?_, ?_, hmain.2.1 (.ok "h")⟩
  · rw [hmain.2.2.1 ⟨"boom", none⟩, hmain.2.2.2.1 ⟨"boom", none⟩ rfl]
  · exact hmain.2.2.2.1 ⟨"boom", none⟩ rfl

end OraiMcp
